import Mathlib

/-!
Shallow embedding of the IsolationManager repository's procedure-list,
filter/search and export code, with theorems checking the specification's
claims against it.

Sources embedded:
- `src/client/src/pages/isolation-management.tsx` (list-builder page state:
  `handleAddToList`, `handleRemoveFromList`, `handleReorderList`,
  `handleUpdateIsolationMethod`, `handleExportLists`, the `displayPoints`
  global-search filter and the saved-list `onClick` hydration handler);
- `src/client/src/components/list-builder.tsx` (`moveItem`);
- `src/server/storage.ts` (`MemStorage.searchIsolationPoints`);
- `src/server/routes.ts` (`POST /api/export/isolation-list` CSV export);
- the jsPDF generator (`EnterprisePDFGenerator.generateLOTOProcedure`),
  modelled as the abstract content it emits.

JavaScript strings are modelled as Lean `String`; `toLowerCase` /
`toUpperCase` as per-character case folding (`strLower` / `strUpper`);
`String.prototype.includes` as an explicit substring test on character
lists; nullable columns as `Option String` with JS `x || ''` rendered as
`Option.getD _ ""`.
-/

/-- `charsLead needle hay` : `needle` is an initial segment of `hay`
(character-list model of a string prefix test). -/
def charsLead : List Char → List Char → Bool
  | [], _ => true
  | _ :: _, [] => false
  | a :: as, b :: bs => a = b && charsLead as bs

/-- `charsContain needle hay` : `needle` occurs contiguously inside `hay`. -/
def charsContain (needle : List Char) : List Char → Bool
  | [] => charsLead needle []
  | b :: bs => charsLead needle (b :: bs) || charsContain needle bs

/-- Model of JavaScript `hay.includes(needle)`. -/
def strIncludes (hay needle : String) : Bool :=
  charsContain needle.toList hay.toList

/-- Model of JavaScript `s.toLowerCase()`: lower each character. -/
def strLower (s : String) : String :=
  String.mk (s.data.map Char.toLower)

/-- Model of JavaScript `s.toUpperCase()`: upper each character. -/
def strUpper (s : String) : String :=
  String.mk (s.data.map Char.toUpper)

/-- The text of `s` up to (excluding) its first newline. -/
def firstLine (s : String) : String :=
  String.mk (s.data.takeWhile (fun c => c ≠ '\n'))

/-- Isolation-point record (shape used by `MemStorage` and the client:
`kks`, `unit`, `description`, `type`, `isolationMethod`, `normalPosition`
always present; `panelKks`, `loadKks`, `isolationPosition`,
`specialInstructions` nullable, per `shared/schema.ts` and the sample data). -/
structure IsolationPoint where
  id : Nat
  kks : String
  unit : String
  description : String
  type : String
  panelKks : Option String
  loadKks : Option String
  isolationMethod : String
  normalPosition : String
  isolationPosition : Option String
  specialInstructions : Option String
  deriving Repr, DecidableEq

/-- Saved list record (`shared/schema.ts` `savedLists` table, fields the
client handlers read). -/
structure SavedList where
  id : Nat
  name : String
  description : Option String
  isolationPointIds : List Nat
  jsaNumber : Option String
  workOrder : Option String
  jobDescription : Option String
  deriving Repr, DecidableEq

/-- Filter criteria (`FilterOptions` in `shared/schema.ts`): optional
free-text search plus optional multi-select sets. -/
structure FilterOptions where
  search : Option String := none
  units : Option (List String) := none
  types : Option (List String) := none
  methods : Option (List String) := none
  positions : Option (List String) := none
  deriving Repr, DecidableEq

/-- JS truthiness test for an optional string: `null`/`undefined` and the
empty string are falsy. -/
def optTruthy : Option String → Bool
  | none => false
  | some s => s ≠ ""

/-- Model of `(field && field.toLowerCase().includes(searchLower))` — the
guarded substring test `MemStorage.searchIsolationPoints` applies to its
nullable columns. -/
def guardedIncludes (field : Option String) (searchLower : String) : Bool :=
  match field with
  | none => false
  | some v => optTruthy (some v) && strIncludes (strLower v) searchLower

namespace Mem

/-- The predicate of the `filters.search` branch of
`MemStorage.searchIsolationPoints` (`src/server/storage.ts` lines 227-239):
eight columns are consulted — `kks`, `description`, `unit`, `type`,
`isolationMethod`, `panelKks`, `loadKks`, `specialInstructions`.
`normalPosition` and `isolationPosition` are not consulted. -/
def searchMatch (p : IsolationPoint) (searchLower : String) : Bool :=
  strIncludes (strLower p.kks) searchLower ||
  strIncludes (strLower p.description) searchLower ||
  strIncludes (strLower p.unit) searchLower ||
  strIncludes (strLower p.type) searchLower ||
  strIncludes (strLower p.isolationMethod) searchLower ||
  guardedIncludes p.panelKks searchLower ||
  guardedIncludes p.loadKks searchLower ||
  guardedIncludes p.specialInstructions searchLower

/-- One multi-select block of `MemStorage.searchIsolationPoints`
(the four blocks at `storage.ts` lines 241-255 are textually analogous):
`if (filters.X && filters.X.length > 0) points = points.filter(p =>
filters.X.includes(value(p)))`. -/
def setStage (sel : Option (List String)) (value : IsolationPoint → String)
    (points : List IsolationPoint) : List IsolationPoint :=
  match sel with
  | some xs => if xs.length > 0 then points.filter (fun p => xs.contains (value p)) else points
  | none => points

/-- `MemStorage.searchIsolationPoints` (`src/server/storage.ts` lines
224-258): successive in-place filters of the catalog snapshot, one per
supplied criterion; a missing or empty criterion applies no filter. -/
def searchIsolationPoints (filters : FilterOptions)
    (points : List IsolationPoint) : List IsolationPoint :=
  let points := if optTruthy filters.search then
      points.filter (fun p => searchMatch p (strLower (filters.search.getD "")))
    else points
  let points := setStage filters.units (fun p => p.unit) points
  let points := setStage filters.types (fun p => p.type) points
  let points := setStage filters.methods (fun p => p.isolationMethod) points
  let points := setStage filters.positions (fun p => p.normalPosition) points
  points

end Mem

namespace Client

/-- The per-point predicate of the `displayPoints` global-search filter
(`src/client/src/pages/isolation-management.tsx` lines 53-69): ten fields,
each read as `(field?.toLowerCase() || '')`, i.e. a missing field is the
empty string. -/
def searchMatch (p : IsolationPoint) (searchTerm : String) : Bool :=
  strIncludes (strLower p.kks) searchTerm ||
  strIncludes (strLower p.description) searchTerm ||
  strIncludes (strLower p.unit) searchTerm ||
  strIncludes (strLower p.type) searchTerm ||
  strIncludes (strLower p.isolationMethod) searchTerm ||
  strIncludes (strLower (p.panelKks.getD "")) searchTerm ||
  strIncludes (strLower (p.loadKks.getD "")) searchTerm ||
  strIncludes (strLower p.normalPosition) searchTerm ||
  strIncludes (strLower (p.isolationPosition.getD "")) searchTerm ||
  strIncludes (strLower (p.specialInstructions.getD "")) searchTerm

/-- `displayPoints` (`isolation-management.tsx` lines 53-69): when the
global search box is non-empty, filter the catalog with `searchMatch`
against the lowercased search term; otherwise show the full catalog. -/
def displayPoints (globalSearch : String) (allIsolationPoints : List IsolationPoint) :
    List IsolationPoint :=
  if globalSearch.length > 0 then
    allIsolationPoints.filter (fun p => searchMatch p (strLower globalSearch))
  else allIsolationPoints

/-- The saved-list `onClick` hydration handler (`isolation-management.tsx`
lines 278-291): `allIsolationPoints.filter(point =>
(list.isolationPointIds || []).includes(point.id))` — the catalog is
traversed in catalog order and a point is kept when its id occurs in the
stored id list. -/
def loadSavedList (allIsolationPoints : List IsolationPoint) (list : SavedList) :
    List IsolationPoint :=
  allIsolationPoints.filter (fun p => list.isolationPointIds.contains p.id)

/-- The count the "List Loaded" toast reports after hydration
(`isolation-management.tsx` line 285): `listPoints.length`, the number of
points hydrated — not the number of stored ids that were dropped. -/
def loadToastCount (allIsolationPoints : List IsolationPoint) (list : SavedList) : Nat :=
  (loadSavedList allIsolationPoints list).length

/-- `handleAddToList` (`isolation-management.tsx` lines 110-125): keep the
batch points whose id is not already in the current list, append them, and
report how many were appended (the toast's `newPoints.length`). -/
def handleAddToList (currentList points : List IsolationPoint) :
    List IsolationPoint × Nat :=
  let newPoints := points.filter (fun point =>
    !(currentList.any (fun listPoint => listPoint.id = point.id)))
  (currentList ++ newPoints, newPoints.length)

/-- `handleRemoveFromList` (`isolation-management.tsx` lines 127-129). -/
def handleRemoveFromList (currentList : List IsolationPoint) (pointId : Nat) :
    List IsolationPoint :=
  currentList.filter (fun point => point.id ≠ pointId)

/-- `handleReorderList` (`isolation-management.tsx` lines 131-133):
`setCurrentList(newOrder)` — the supplied order replaces the list with no
validation of any kind. -/
def handleReorderList (_currentList newOrder : List IsolationPoint) :
    List IsolationPoint :=
  newOrder

/-- The per-entry function `handleUpdateIsolationMethod` maps over the
current list (`isolation-management.tsx` lines 136-140): replace
`isolationMethod` when the id matches, return the entry untouched
otherwise. -/
def updFun (pointId : Nat) (newMethod : String) (point : IsolationPoint) :
    IsolationPoint :=
  if point.id = pointId then { point with isolationMethod := newMethod } else point

/-- `handleUpdateIsolationMethod` (`isolation-management.tsx` lines
135-145): map over the current list, replacing `isolationMethod` on the
entry (entries) whose id matches. -/
def handleUpdateIsolationMethod (currentList : List IsolationPoint)
    (pointId : Nat) (newMethod : String) : List IsolationPoint :=
  currentList.map (updFun pointId newMethod)

/-- The slice of the page's React state the procedure-list handlers touch:
the catalog query result and the in-session list. -/
structure PageState where
  allIsolationPoints : List IsolationPoint
  currentList : List IsolationPoint
  deriving Repr, DecidableEq

/-- `handleUpdateIsolationMethod` as a transition on the page state: only
`setCurrentList` is called, the catalog query data is untouched. -/
def updateIsolationMethodState (s : PageState) (pointId : Nat) (newMethod : String) :
    PageState :=
  { s with currentList := handleUpdateIsolationMethod s.currentList pointId newMethod }

/-- `handleExportLists` (`isolation-management.tsx` lines 152-167): with an
empty current list the handler shows a toast and returns without issuing a
request; otherwise it posts the current list. -/
def handleExportLists (currentList : List IsolationPoint) :
    Option (List IsolationPoint) :=
  if currentList.length = 0 then none else some currentList

/-- An interactive mutation of the current list, as issued by the page. -/
inductive ListOp where
  | add (points : List IsolationPoint)
  | remove (pointId : Nat)
  deriving Repr, DecidableEq

/-- Apply one add/remove handler to the current list. -/
def applyOp (currentList : List IsolationPoint) : ListOp → List IsolationPoint
  | .add points => (handleAddToList currentList points).1
  | .remove pointId => handleRemoveFromList currentList pointId

/-- Run a sequence of add/remove operations from the initially empty list. -/
def runOps (ops : List ListOp) : List IsolationPoint :=
  ops.foldl applyOp []

/-- Direction argument of `moveItem`. -/
inductive MoveDir where
  | up
  | down
  deriving Repr, DecidableEq

/-- Insert at index `i`, as `array.splice(i, 0, a)` does. -/
def spliceInsert (l : List IsolationPoint) (i : Nat) (a : IsolationPoint) :
    List IsolationPoint :=
  l.take i ++ a :: l.drop i

/-- Remove the element at index `i`, as `array.splice(i, 1)` does. -/
def spliceRemove (l : List IsolationPoint) (i : Nat) : List IsolationPoint :=
  l.take i ++ l.drop (i + 1)

/-- `moveItem` (`src/client/src/components/list-builder.tsx` lines 176-185):
compute the neighbouring index, return the list unchanged when it falls
outside the list, otherwise remove the item at `fromIdx` and re-insert it
at the neighbouring index. (`fromIdx` is always an index of a rendered
entry, so the `none` branch of the lookup is unreachable in the page.) -/
def moveItem (currentList : List IsolationPoint) (fromIdx : Nat) (dir : MoveDir) :
    List IsolationPoint :=
  match dir with
  | .up =>
    if fromIdx = 0 then currentList
    else if currentList.length ≤ fromIdx - 1 then currentList
    else match currentList.get? fromIdx with
      | none => currentList
      | some item => spliceInsert (spliceRemove currentList fromIdx) (fromIdx - 1) item
  | .down =>
    if currentList.length ≤ fromIdx + 1 then currentList
    else match currentList.get? fromIdx with
      | none => currentList
      | some item => spliceInsert (spliceRemove currentList fromIdx) (fromIdx + 1) item

end Client

namespace Routes

/-- One rendered field of the CSV export (`src/server/routes.ts` line 180):
the template literal wraps the raw value in double quotes; no character of
the value is escaped or altered. -/
def quoteField (s : String) : String :=
  "\"" ++ s ++ "\""

/-- The ten fields of one CSV row, in emitted order; the four nullable
columns are read through `|| ''`. -/
def rowFields (p : IsolationPoint) : List String :=
  [quoteField p.kks, quoteField p.unit, quoteField p.description,
   quoteField p.type, quoteField (p.panelKks.getD ""),
   quoteField (p.loadKks.getD ""), quoteField p.isolationMethod,
   quoteField p.normalPosition, quoteField (p.isolationPosition.getD ""),
   quoteField (p.specialInstructions.getD "")]

/-- One data row of the CSV export (`routes.ts` lines 179-181). -/
def csvRow (p : IsolationPoint) : String :=
  String.intercalate "," (rowFields p)

/-- The fixed column header emitted by the route (`routes.ts` line 178),
trailing newline included. -/
def csvHeader : String :=
  "KKS,Unit,Description,Type,Panel KKS,Load KKS,Method,Normal Position,Isolation Position,Special Instructions\n"

/-- The catalog points selected by the export route (`routes.ts` line 175):
the full catalog filtered by membership of the point's id in the request's
id array — hence catalog order, and ids with no catalog point select
nothing. -/
def selectedPoints (catalog : List IsolationPoint) (isolationPointIds : List Nat) :
    List IsolationPoint :=
  catalog.filter (fun p => isolationPointIds.contains p.id)

/-- The CSV text sent by `POST /api/export/isolation-list`
(`routes.ts` lines 178-185): header plus newline-joined rows. -/
def exportCsv (catalog : List IsolationPoint) (isolationPointIds : List Nat) :
    String :=
  csvHeader ++ String.intercalate "\n" ((selectedPoints catalog isolationPointIds).map csvRow)

/-- The export route's body handling (`routes.ts` lines 169-185): a request
whose `isolationPointIds` is not an array is answered 400; otherwise the
CSV is rendered and sent. -/
def exportRoute (catalog : List IsolationPoint) (isolationPointIds : Option (List Nat)) :
    Except String String :=
  match isolationPointIds with
  | none => .error "Invalid isolation point IDs"
  | some ids => .ok (exportCsv catalog ids)

end Routes

namespace Pdf

/-- The metadata object the PDF generator consumes (`PDFMetadata`). -/
structure PDFMetadata where
  listName : String
  jsaNumber : String
  workOrder : String
  jobDescription : String
  deriving Repr, DecidableEq

/-- The text content `EnterprisePDFGenerator.generateLOTOProcedure`
draws into the document, in emission order: the banner title, the
uppercased document name, the three-row metadata table and the steps
table with its fixed head. Geometry, colour and the page footer (which
depend only on page counts and the wall clock) are not modelled. -/
structure PdfDoc where
  bannerTitle : String
  docName : String
  infoRows : List (String × String)
  stepsHead : List String
  stepsRows : List (List String)
  deriving Repr, DecidableEq

/-- `generateLOTOProcedure` (the jsPDF generator, lines 32-37 and the
`addHeader` / `addProcedureInfo` / `addIsolationTable` bodies): a total
function — the source contains no emptiness check and no throw; an empty
point list simply yields an empty `stepsRows`. -/
def generateLOTOProcedure (points : List IsolationPoint) (metadata : PDFMetadata) :
    PdfDoc :=
  { bannerTitle := "LOCKOUT/TAGOUT PROCEDURE"
    docName := strUpper metadata.listName
    infoRows := [("JSA Number:", metadata.jsaNumber),
                 ("Work Order:", metadata.workOrder),
                 ("Job Description:", metadata.jobDescription)]
    stepsHead := ["Step", "KKS Code", "Unit", "Description", "Isolation Method"]
    stepsRows := points.enum.map (fun ip =>
      [toString (ip.1 + 1), ip.2.kks, ip.2.unit, ip.2.description, ip.2.isolationMethod]) }

end Pdf


namespace FilterSpec

/-!
Spec-side restatements of the filter/search contract (§4.1 of the spec),
used to compare the evaluator in `Mem` against the specification's words.
-/

/-- Spec §4.1, one multi-select dimension: a missing or empty set is no
constraint; otherwise the point's value must be a member of the set. -/
def dimMatch (sel : Option (List String)) (value : String) : Bool :=
  match sel with
  | none => true
  | some xs => if xs.length > 0 then xs.contains value else true

/-- Spec §4.1, the free-text dimension: no constraint when the search text
is missing or empty. -/
def searchDim (filters : FilterOptions) (p : IsolationPoint) : Bool :=
  if optTruthy filters.search then
    Mem.searchMatch p (strLower (filters.search.getD ""))
  else true

/-- Spec §4.1: all supplied dimensions must match (AND across dimensions). -/
def matchesCriteria (filters : FilterOptions) (p : IsolationPoint) : Bool :=
  searchDim filters p &&
  dimMatch filters.units p.unit &&
  dimMatch filters.types p.type &&
  dimMatch filters.methods p.isolationMethod &&
  dimMatch filters.positions p.normalPosition

/-- The ten fields the spec says the free-text search consults, missing
fields read as the empty string (the list the client filter actually
uses). -/
def clientSearchFields (p : IsolationPoint) : List String :=
  [p.kks, p.description, p.unit, p.type, p.isolationMethod,
   p.panelKks.getD "", p.loadKks.getD "", p.normalPosition,
   p.isolationPosition.getD "", p.specialInstructions.getD ""]

/-- The eight fields `MemStorage.searchIsolationPoints` actually consults:
`normalPosition` and `isolationPosition` are missing from the code's
disjunction. -/
def memSearchFields (p : IsolationPoint) : List String :=
  [p.kks, p.description, p.unit, p.type, p.isolationMethod,
   p.panelKks.getD "", p.loadKks.getD "", p.specialInstructions.getD ""]

/-- A well-formed add batch: pairwise distinct point ids (true of every
batch the page issues, which are single points or id-distinct catalog
subsets). -/
def batchOk : Client.ListOp → Bool
  | .add points => decide ((points.map (fun p => p.id)).Nodup)
  | .remove _ => true

end FilterSpec

namespace Demo

/-- Concrete catalog point used in witnesses and counterexamples. -/
def pA : IsolationPoint :=
  { id := 1, kks := "K1", unit := "Unit 1", description := "Pump breaker",
    type := "Electrical", panelKks := some "P1", loadKks := none,
    isolationMethod := "Open and LOTO", normalPosition := "Closed",
    isolationPosition := some "Open", specialInstructions := none }

/-- Second concrete catalog point. -/
def pB : IsolationPoint :=
  { id := 2, kks := "K2", unit := "Unit 2", description := "Steam valve",
    type := "Mechanical", panelKks := none, loadKks := none,
    isolationMethod := "Close and LOTO", normalPosition := "Open",
    isolationPosition := none, specialInstructions := some "Vent first" }

/-- A point whose only field containing "closed" is `normalPosition`. -/
def pNP : IsolationPoint :=
  { id := 7, kks := "X9", unit := "U4", description := "Spare feed",
    type := "Elec", panelKks := none, loadKks := none,
    isolationMethod := "Rack-Out", normalPosition := "Closed",
    isolationPosition := some "Open", specialInstructions := none }

/-- A point with every nullable column absent. -/
def pOpt : IsolationPoint :=
  { id := 3, kks := "K3", unit := "Unit 1", description := "Drain line",
    type := "Mechanical", panelKks := none, loadKks := none,
    isolationMethod := "Insert Blind", normalPosition := "Open",
    isolationPosition := none, specialInstructions := none }

/-- A saved list whose stored id order reverses the catalog order. -/
def savedRev : SavedList :=
  { id := 1, name := "Emergency Shutdown", description := none,
    isolationPointIds := [2, 1], jsaNumber := none, workOrder := none,
    jobDescription := none }

/-- The spec's own hydration example: stored ids `[1, 2, 999]` where no
catalog point has id 999. -/
def savedDrop : SavedList :=
  { id := 2, name := "Unit 1 Maintenance", description := none,
    isolationPointIds := [1, 2, 999], jsaNumber := none, workOrder := none,
    jobDescription := none }

/-- Concrete PDF metadata. -/
def meta0 : Pdf.PDFMetadata :=
  { listName := "Outage 12", jsaNumber := "J-1", workOrder := "W-2",
    jobDescription := "Swap pump" }

end Demo

/-! ### General lemmas -/

theorem toList_ne_nil_of_ne_empty (t : String) (h : t ≠ "") : t.toList ≠ [] := by
  intro hn
  apply h
  obtain ⟨d⟩ := t
  cases d with
  | nil => rfl
  | cons c cs => simp [String.toList] at hn

theorem charsContain_nil (needle : List Char) (h : needle ≠ []) :
    charsContain needle [] = false := by
  cases needle with
  | nil => exact absurd rfl h
  | cons c cs => rfl

theorem strIncludes_empty_hay (t : String) (h : t ≠ "") :
    strIncludes "" t = false := by
  unfold strIncludes
  exact charsContain_nil t.toList (toList_ne_nil_of_ne_empty t h)

theorem strLower_empty : strLower "" = "" := rfl

theorem guardedIncludes_getD (o : Option String) (t : String) (h : t ≠ "") :
    guardedIncludes o t = strIncludes (strLower (o.getD "")) t := by
  cases o with
  | none =>
    show false = strIncludes (strLower "") t
    rw [strLower_empty, strIncludes_empty_hay t h]
  | some v =>
    by_cases hv : v = ""
    · subst hv
      simp [guardedIncludes, optTruthy, strLower_empty, strIncludes_empty_hay t h]
    · simp [guardedIncludes, optTruthy, hv]

theorem filter_comp_map {α β : Type} (f : α → β) (q : β → Bool) (l : List α) :
    (l.filter (fun a => q (f a))).map f = (l.map f).filter q := by
  induction l with
  | nil => rfl
  | cons a t ih => by_cases h : q (f a) <;> simp [h, ih]

theorem setStage_eq_filter (sel : Option (List String)) (value : IsolationPoint → String)
    (l : List IsolationPoint) :
    Mem.setStage sel value l = l.filter (fun p => FilterSpec.dimMatch sel (value p)) := by
  cases sel with
  | none => simp [Mem.setStage, FilterSpec.dimMatch]
  | some xs =>
    by_cases h : xs.length > 0 <;> simp [Mem.setStage, FilterSpec.dimMatch, h]

theorem searchStage_eq_filter (filters : FilterOptions) (l : List IsolationPoint) :
    (if optTruthy filters.search then
        l.filter (fun p => Mem.searchMatch p (strLower (filters.search.getD "")))
      else l)
    = l.filter (fun p => FilterSpec.searchDim filters p) := by
  by_cases h : optTruthy filters.search <;> simp [FilterSpec.searchDim, h]

theorem searchIsolationPoints_eq_filter (filters : FilterOptions)
    (catalog : List IsolationPoint) :
    Mem.searchIsolationPoints filters catalog
      = catalog.filter (fun p => FilterSpec.matchesCriteria filters p) := by
  show Mem.setStage filters.positions _
      (Mem.setStage filters.methods _
        (Mem.setStage filters.types _
          (Mem.setStage filters.units _
            (if optTruthy filters.search then _ else catalog)))) = _
  rw [searchStage_eq_filter, setStage_eq_filter, setStage_eq_filter,
    setStage_eq_filter, setStage_eq_filter, List.filter_filter,
    List.filter_filter, List.filter_filter, List.filter_filter]
  apply List.filter_congr
  intro p _
  simp only [FilterSpec.matchesCriteria]
  cases FilterSpec.searchDim filters p <;>
    cases FilterSpec.dimMatch filters.units p.unit <;>
    cases FilterSpec.dimMatch filters.types p.type <;>
    cases FilterSpec.dimMatch filters.methods p.isolationMethod <;>
    cases FilterSpec.dimMatch filters.positions p.normalPosition <;> rfl

/-! ### Claim theorems -/

/-- C7: for every catalog snapshot and every `FilterCriteria`, the filter
evaluator returns exactly the points for which all supplied dimensions
match (within a dimension: membership in the supplied set; an empty or
absent set is no constraint), no criteria at all is the identity, and the
result preserves source order (it is a sublist of the catalog). -/
theorem c7_filter_evaluator_exact (catalog : List IsolationPoint) (filters : FilterOptions) :
    Mem.searchIsolationPoints filters catalog
      = catalog.filter (fun p => FilterSpec.matchesCriteria filters p)
    ∧ (∀ p, p ∈ Mem.searchIsolationPoints filters catalog ↔
        p ∈ catalog ∧ FilterSpec.matchesCriteria filters p = true)
    ∧ (Mem.searchIsolationPoints filters catalog).Sublist catalog
    ∧ Mem.searchIsolationPoints {} catalog = catalog := by
  refine ⟨searchIsolationPoints_eq_filter filters catalog, ?_, ?_, rfl⟩
  · intro p
    rw [searchIsolationPoints_eq_filter]
    exact List.mem_filter
  · rw [searchIsolationPoints_eq_filter]
    exact List.filter_sublist catalog

/-- C8 counterexample: the point `Demo.pNP` matches the search term
"closed" only through its `normalPosition` field, yet
`MemStorage.searchIsolationPoints` excludes it — the in-memory search
consults eight fields, not the ten the claim lists (the client's global
search does return it). -/
theorem c8_counterexample :
    Mem.searchIsolationPoints { search := some "Closed" } [Demo.pNP] = []
    ∧ strIncludes (strLower Demo.pNP.normalPosition) "closed" = true
    ∧ Client.displayPoints "Closed" [Demo.pNP] = [Demo.pNP] := by
  refine ⟨by decide, by decide, by decide⟩

/-- C8 amended: for a non-empty (lowercased) search term, the client's
global-search predicate matches a point exactly when the term occurs in
one of the ten fields (absent fields read as the empty string), while
`MemStorage`'s search predicate matches exactly when the term occurs in
one of only eight fields — `normalPosition` and `isolationPosition` are
not consulted; evaluation is total in both cases. -/
theorem c8_amended_search_fields (p : IsolationPoint) (searchLower : String)
    (h : searchLower ≠ "") :
    (Client.searchMatch p searchLower = true ↔
      ∃ f ∈ FilterSpec.clientSearchFields p, strIncludes (strLower f) searchLower = true)
    ∧ (Mem.searchMatch p searchLower = true ↔
      ∃ f ∈ FilterSpec.memSearchFields p, strIncludes (strLower f) searchLower = true) := by
  constructor
  · simp only [Client.searchMatch, FilterSpec.clientSearchFields, List.mem_cons,
      List.mem_singleton, List.not_mem_nil, or_false, exists_eq_or_imp, exists_eq_left,
      Bool.or_eq_true]
    tauto
  · simp only [Mem.searchMatch, guardedIncludes_getD _ _ h, FilterSpec.memSearchFields,
      List.mem_cons, List.mem_singleton, List.not_mem_nil, or_false, exists_eq_or_imp,
      exists_eq_left, Bool.or_eq_true]
    tauto

/-- C8 witness: the amended characterization applied at `Demo.pNP` and the
concrete term "closed". -/
theorem c8_amended_search_fields_witness :
    (Client.searchMatch Demo.pNP "closed" = true ↔
      ∃ f ∈ FilterSpec.clientSearchFields Demo.pNP, strIncludes (strLower f) "closed" = true)
    ∧ (Mem.searchMatch Demo.pNP "closed" = true ↔
      ∃ f ∈ FilterSpec.memSearchFields Demo.pNP, strIncludes (strLower f) "closed" = true) :=
  c8_amended_search_fields Demo.pNP "closed" (by decide)

/-- C1 counterexample: the saved list `Demo.savedRev` stores ids `[2, 1]`,
yet hydration against the catalog `[pA, pB]` (ids `[1, 2]`) yields ids
`[1, 2]` — catalog order, not the stored order; and for the spec's own
example `[1, 2, 999]` with point 999 absent, the toast count is the
hydrated count 2, not the dropped count 1. -/
theorem c1_counterexample :
    Demo.savedRev.isolationPointIds = [2, 1]
    ∧ (Client.loadSavedList [Demo.pA, Demo.pB] Demo.savedRev).map (fun p => p.id) = [1, 2]
    ∧ (Client.loadSavedList [Demo.pA, Demo.pB] Demo.savedRev).map (fun p => p.id)
        ≠ Demo.savedRev.isolationPointIds
    ∧ Demo.savedDrop.isolationPointIds = [1, 2, 999]
    ∧ (Client.loadSavedList [Demo.pA, Demo.pB] Demo.savedDrop).map (fun p => p.id) = [1, 2]
    ∧ Client.loadToastCount [Demo.pA, Demo.pB] Demo.savedDrop = 2 := by
  refine ⟨rfl, by decide, by decide, rfl, by decide, by decide⟩

/-- C1 amended: hydrating a saved list returns the catalog points whose id
occurs in the stored id list, in catalog order (a sublist of the catalog
whose id sequence is the catalog id sequence restricted to the stored id
set); stored ids absent from the catalog are dropped silently (removing
them from the stored list does not change the result); and the count
reported to the caller is the hydrated count, not the dropped count. -/
theorem c1_amended_hydration (catalog : List IsolationPoint) (list : SavedList) :
    (Client.loadSavedList catalog list).map (fun p => p.id)
      = (catalog.map (fun p => p.id)).filter (fun i => list.isolationPointIds.contains i)
    ∧ (Client.loadSavedList catalog list).Sublist catalog
    ∧ Client.loadSavedList catalog
        { list with isolationPointIds :=
            (list.isolationPointIds.filter (fun i => (catalog.map (fun p => p.id)).contains i)) }
        = Client.loadSavedList catalog list
    ∧ Client.loadToastCount catalog list = (Client.loadSavedList catalog list).length := by
  refine ⟨filter_comp_map _ _ _, List.filter_sublist catalog, ?_, rfl⟩
  unfold Client.loadSavedList
  apply List.filter_congr
  intro p hp
  have hpid : p.id ∈ catalog.map (fun q => q.id) := List.mem_map_of_mem _ hp
  simp [List.mem_filter]
  exact fun _ => ⟨p, hp, rfl⟩

/-- Appending one well-formed batch (or removing one id) preserves
distinctness of the point ids in the current list. -/
theorem applyOp_nodup (l : List IsolationPoint) (op : Client.ListOp)
    (hl : (l.map (fun p => p.id)).Nodup) (hop : FilterSpec.batchOk op = true) :
    ((Client.applyOp l op).map (fun p => p.id)).Nodup := by
  cases op with
  | remove pid =>
    have hs : (Client.handleRemoveFromList l pid).Sublist l := List.filter_sublist l
    exact (hs.map _).nodup hl
  | add pts =>
    have hb : ((pts.map (fun p => p.id)).Nodup) := of_decide_eq_true hop
    simp only [Client.applyOp, Client.handleAddToList]
    rw [List.map_append]
    apply List.Nodup.append hl
    · have hsub : ((pts.filter (fun point => !(l.any (fun q => q.id = point.id)))).map
          (fun p => p.id)).Sublist (pts.map (fun p => p.id)) :=
        (List.filter_sublist pts).map _
      exact hsub.nodup hb
    · intro a ha hb2
      obtain ⟨q, hq, hqa⟩ := List.mem_map.mp ha
      obtain ⟨r, hr, hra⟩ := List.mem_map.mp hb2
      obtain ⟨hrpts, hrkeep⟩ := List.mem_filter.mp hr
      have hfalse : l.any (fun q2 => q2.id = r.id) = false := by simpa using hrkeep
      have htrue : l.any (fun q2 => q2.id = r.id) = true := by
        refine List.any_eq_true.mpr ⟨q, hq, by simp [hqa, hra]⟩
      rw [htrue] at hfalse
      exact Bool.noConfusion hfalse

/-- Distinctness of ids is an invariant of any run of well-formed
add/remove operations, whatever list it starts from. -/
theorem runOps_nodup_aux (ops : List Client.ListOp) :
    ∀ l, ops.all FilterSpec.batchOk = true → (l.map (fun p => p.id)).Nodup →
      ((ops.foldl Client.applyOp l).map (fun p => p.id)).Nodup := by
  induction ops with
  | nil => intro l _ hl; simpa using hl
  | cons op rest ih =>
    intro l hall hl
    simp only [List.all_cons, Bool.and_eq_true] at hall
    simp only [List.foldl_cons]
    exact ih _ hall.2 (applyOp_nodup l op hl hall.1)

/-- C2 counterexample: one `add` call whose batch repeats the same point
(`[pA, pA]`) starting from the empty list produces `[pA, pA]` — the
handler only filters against the list as it was before the call, so the
resulting list has a duplicate point id, contradicting the claim's "for
every sequence of add and remove operations". -/
theorem c2_counterexample :
    Client.runOps [Client.ListOp.add [Demo.pA, Demo.pA]] = [Demo.pA, Demo.pA]
    ∧ ¬ ((Client.runOps [Client.ListOp.add [Demo.pA, Demo.pA]]).map (fun p => p.id)).Nodup := by
  refine ⟨by decide, by decide⟩

/-- C2 amended: provided each add batch itself carries pairwise-distinct
point ids (true of every batch the page issues — single points, or
filtered subsets of the id-unique catalog), every sequence of add/remove
operations from the empty list yields a list with no duplicate point ids;
re-adding an already-present point is a no-op with 0 reported as the count
added; removing an absent id is a no-op. -/
theorem c2_amended_uniqueness :
    (∀ ops : List Client.ListOp, ops.all FilterSpec.batchOk = true →
      ((Client.runOps ops).map (fun p => p.id)).Nodup)
    ∧ (∀ (l : List IsolationPoint) (p : IsolationPoint),
        l.any (fun q => q.id = p.id) = true → Client.handleAddToList l [p] = (l, 0))
    ∧ (∀ (l : List IsolationPoint) (pointId : Nat),
        l.any (fun q => q.id = pointId) = false → Client.handleRemoveFromList l pointId = l) := by
  refine ⟨?_, ?_, ?_⟩
  · intro ops hops
    exact runOps_nodup_aux ops [] hops (by simp)
  · intro l p h
    simp [Client.handleAddToList, h]
  · intro l pointId h
    simp only [List.any_eq_false, decide_eq_true_eq] at h
    exact List.filter_eq_self.mpr (fun a ha => by simp [h a ha])

/-- C2 witness: the amended invariant at a concrete operation sequence,
a concrete duplicate re-add and a concrete absent removal. -/
theorem c2_amended_uniqueness_witness :
    ((Client.runOps [Client.ListOp.add [Demo.pA, Demo.pB], Client.ListOp.remove 9]).map
      (fun p => p.id)).Nodup
    ∧ Client.handleAddToList [Demo.pA] [Demo.pA] = ([Demo.pA], 0)
    ∧ Client.handleRemoveFromList [Demo.pA] 9 = [Demo.pA] :=
  ⟨c2_amended_uniqueness.1 _ (by decide), c2_amended_uniqueness.2.1 _ _ (by decide),
   c2_amended_uniqueness.2.2 _ _ (by decide)⟩

/-- A list splits around the element a successful index lookup returns. -/
theorem get?_decomp {α : Type} (l : List α) (i : Nat) (a : α) (h : l.get? i = some a) :
    l = l.take i ++ a :: l.drop (i + 1) := by
  have hi : i < l.length := by
    by_contra hc
    push_neg at hc
    rw [List.get?_eq_none.mpr hc] at h
    exact Option.noConfusion h
  have ha : l[i] = a := by
    rw [List.get?_eq_getElem? l i, List.getElem?_eq_getElem hi] at h
    exact Option.some.inj h
  conv_lhs => rw [← List.take_append_drop i l, List.drop_eq_getElem_cons hi, ha]

/-- `splice(i, 0, a)` yields a permutation of `a` consed on the list. -/
theorem spliceInsert_perm (l : List IsolationPoint) (i : Nat) (a : IsolationPoint) :
    (Client.spliceInsert l i a).Perm (a :: l) := by
  unfold Client.spliceInsert
  have h1 : (l.take i ++ a :: l.drop i).Perm (a :: (l.take i ++ l.drop i)) := List.perm_middle
  rwa [List.take_append_drop] at h1

/-- A list is a permutation of the looked-up element consed on the
result of `splice(i, 1)`. -/
theorem spliceRemove_perm (l : List IsolationPoint) (i : Nat) (a : IsolationPoint)
    (h : l.get? i = some a) : l.Perm (a :: Client.spliceRemove l i) := by
  conv_lhs => rw [get?_decomp l i a h]
  unfold Client.spliceRemove
  exact List.perm_middle

/-- `moveItem` only ever permutes the current list. -/
theorem moveItem_perm (l : List IsolationPoint) (i : Nat) (dir : Client.MoveDir) :
    (Client.moveItem l i dir).Perm l := by
  cases dir with
  | up =>
    by_cases h0 : i = 0
    · simp [Client.moveItem, h0]
    · by_cases hlen : l.length ≤ i - 1
      · simp [Client.moveItem, h0, hlen]
      · cases hg : l.get? i with
        | none =>
          rw [List.get?_eq_getElem? ] at hg
          simp [Client.moveItem, h0, hlen, hg]
        | some item =>
          have hg2 := hg
          rw [List.get?_eq_getElem? ] at hg2
          have heq : Client.moveItem l i Client.MoveDir.up
              = Client.spliceInsert (Client.spliceRemove l i) (i - 1) item := by
            simp [Client.moveItem, h0, hlen, hg2]
          rw [heq]
          exact (spliceInsert_perm _ _ _).trans (spliceRemove_perm l i item hg).symm
  | down =>
    by_cases hlen : l.length ≤ i + 1
    · simp [Client.moveItem, hlen]
    · cases hg : l.get? i with
      | none =>
        rw [List.get?_eq_getElem? ] at hg
        simp [Client.moveItem, hlen, hg]
      | some item =>
        have hg2 := hg
        rw [List.get?_eq_getElem? ] at hg2
        have heq : Client.moveItem l i Client.MoveDir.down
            = Client.spliceInsert (Client.spliceRemove l i) (i + 1) item := by
          simp [Client.moveItem, hlen, hg2]
        rw [heq]
        exact (spliceInsert_perm _ _ _).trans (spliceRemove_perm l i item hg).symm

/-- C3 counterexample: `handleReorderList` applied to the list `[pA]` and
the non-permutation `[]` returns `[]` — no `InvalidOrderError` exists in
the code and the list is not left unchanged; likewise `[pB]` replaces the
membership outright, so additions/removals do occur through reorder. -/
theorem c3_counterexample :
    Client.handleReorderList [Demo.pA] [] = []
    ∧ Client.handleReorderList [Demo.pA] [] ≠ [Demo.pA]
    ∧ Client.handleReorderList [Demo.pA] [Demo.pB] = [Demo.pB] := by
  refine ⟨rfl, by decide, rfl⟩

/-- C3 amended: `handleReorderList` unconditionally installs the supplied
order — so re-reading after a permutation yields exactly that permutation,
but a non-permutation is installed just the same (no validation, no
error); the page's own reorder sources are safe, though: `moveItem` always
produces a permutation of the current list. -/
theorem c3_amended_reorder :
    (∀ (currentList newOrder : List IsolationPoint),
      Client.handleReorderList currentList newOrder = newOrder)
    ∧ (∀ (l : List IsolationPoint) (i : Nat) (dir : Client.MoveDir),
      (Client.moveItem l i dir).Perm l) :=
  ⟨fun _ _ => rfl, moveItem_perm⟩

/-- C4 counterexample: the CSV the export route renders for a concrete
catalog and request opens with the ten-column header
`KKS,Unit,...,Special Instructions`, not the claimed
`Step,KKS Code,Unit,Description,Type,Isolation Method`, and for the
request order `[2, 1]` the rows come out in catalog order `[1, 2]`, not
list order. -/
theorem c4_counterexample :
    firstLine (Routes.exportCsv [Demo.pA] [1])
      = "KKS,Unit,Description,Type,Panel KKS,Load KKS,Method,Normal Position,Isolation Position,Special Instructions"
    ∧ firstLine (Routes.exportCsv [Demo.pA] [1])
        ≠ "Step,KKS Code,Unit,Description,Type,Isolation Method"
    ∧ (Routes.selectedPoints [Demo.pA, Demo.pB] [2, 1]).map (fun p => p.id) = [1, 2]
    ∧ (Routes.selectedPoints [Demo.pA, Demo.pB] [2, 1]).map (fun p => p.id) ≠ [2, 1] := by
  refine ⟨by decide, by decide, by decide, by decide⟩

/-- C4 amended: the CSV export route emits the fixed ten-column header
(with no step-number column) and then one double-quoted row per catalog
point whose id is in the request's id array, in catalog order (the
selection is a sublist of the catalog whose id sequence is the catalog id
sequence restricted to the requested ids); the isolation-method field
(position 7 of the row) is the point's catalog `isolationMethod` — the
route receives only ids, so per-entry overrides are never applied. -/
theorem c4_amended_csv_route (catalog : List IsolationPoint) (ids : List Nat) :
    Routes.exportCsv catalog ids
      = Routes.csvHeader
        ++ String.intercalate "\n" ((Routes.selectedPoints catalog ids).map Routes.csvRow)
    ∧ (Routes.selectedPoints catalog ids).Sublist catalog
    ∧ (Routes.selectedPoints catalog ids).map (fun p => p.id)
        = (catalog.map (fun p => p.id)).filter (fun i => ids.contains i)
    ∧ (∀ p : IsolationPoint,
        (Routes.rowFields p).get? 6 = some (Routes.quoteField p.isolationMethod))
    ∧ Routes.csvHeader
        = "KKS,Unit,Description,Type,Panel KKS,Load KKS,Method,Normal Position,Isolation Position,Special Instructions\n" := by
  refine ⟨rfl, List.filter_sublist catalog, filter_comp_map _ _ _, fun p => rfl, rfl⟩

/-- C5 counterexample: the spec's own example field
`Valve, "Main" isolation` renders with its embedded quotes verbatim,
`"Valve, "Main" isolation"`, not CSV-escaped by doubling. -/
theorem c5_counterexample :
    Routes.quoteField "Valve, \"Main\" isolation" = "\"Valve, \"Main\" isolation\""
    ∧ Routes.quoteField "Valve, \"Main\" isolation" ≠ "\"Valve, \"\"Main\"\" isolation\"" := by
  refine ⟨rfl, by decide⟩

/-- C5 amended: every CSV field value is wrapped in double quotes with the
value's characters — commas, newlines and also embedded double quotes —
emitted verbatim and unescaped (so a field containing a double quote
produces malformed CSV); rows are the comma-join of the ten quoted
fields; a missing optional source field renders as the empty quoted field
`""`, never a literal "undefined" or "null". -/
theorem c5_amended_quoting (s : String) (p : IsolationPoint) :
    (Routes.quoteField s).data = '"' :: s.data ++ ['"']
    ∧ Routes.csvRow p = String.intercalate "," (Routes.rowFields p)
    ∧ (p.panelKks = none → (Routes.rowFields p).get? 4 = some (Routes.quoteField ""))
    ∧ (p.loadKks = none → (Routes.rowFields p).get? 5 = some (Routes.quoteField ""))
    ∧ (p.isolationPosition = none → (Routes.rowFields p).get? 8 = some (Routes.quoteField ""))
    ∧ (p.specialInstructions = none → (Routes.rowFields p).get? 9 = some (Routes.quoteField ""))
    ∧ Routes.quoteField "" = "\"\"" := by
  refine ⟨?_, rfl, ?_, ?_, ?_, ?_, rfl⟩
  · simp [Routes.quoteField, String.data_append]
  · intro h; simp [Routes.rowFields, h]
  · intro h; simp [Routes.rowFields, h]
  · intro h; simp [Routes.rowFields, h]
  · intro h; simp [Routes.rowFields, h]

/-- C5 witness: the quoting characterization at a concrete string and the
all-optionals-absent point `Demo.pOpt`. -/
theorem c5_amended_quoting_witness :
    (Routes.quoteField "ab").data = '"' :: "ab".data ++ ['"']
    ∧ (Routes.rowFields Demo.pOpt).get? 4 = some (Routes.quoteField "")
    ∧ (Routes.rowFields Demo.pOpt).get? 9 = some (Routes.quoteField "") :=
  ⟨(c5_amended_quoting "ab" Demo.pOpt).1, (c5_amended_quoting "ab" Demo.pOpt).2.2.1 rfl,
   (c5_amended_quoting "ab" Demo.pOpt).2.2.2.2.2.1 rfl⟩

/-- C10: the export route succeeds on any id array; ids with no catalog
point are silently ignored (dropping them from the request leaves the
output unchanged) and every selected row is a catalog point whose id was
requested. -/
theorem c10_unknown_ids_ignored (catalog : List IsolationPoint) (ids : List Nat) :
    Routes.exportRoute catalog (some ids) = Except.ok (Routes.exportCsv catalog ids)
    ∧ Routes.exportCsv catalog ids
        = Routes.exportCsv catalog
            (ids.filter (fun i => (catalog.map (fun p => p.id)).contains i))
    ∧ (∀ p, p ∈ Routes.selectedPoints catalog ids →
        p ∈ catalog ∧ ids.contains p.id = true) := by
  refine ⟨rfl, ?_, ?_⟩
  · have hsel : Routes.selectedPoints catalog
        (ids.filter (fun i => (catalog.map (fun p => p.id)).contains i))
        = Routes.selectedPoints catalog ids := by
      unfold Routes.selectedPoints
      apply List.filter_congr
      intro p hp
      have hpid : p.id ∈ catalog.map (fun q => q.id) := List.mem_map_of_mem _ hp
      simp [List.mem_filter]
      exact fun _ => ⟨p, hp, rfl⟩
    unfold Routes.exportCsv
    rw [hsel]
  · intro p hp
    exact ⟨(List.mem_filter.mp hp).1, (List.mem_filter.mp hp).2⟩

/-- C10 witness: the route applied to catalog `[pA]` and the id array
`[1, 999]`, where 999 matches no catalog point. -/
theorem c10_unknown_ids_ignored_witness :
    Routes.exportRoute [Demo.pA] (some [1, 999])
      = Except.ok (Routes.exportCsv [Demo.pA] [1, 999])
    ∧ (Demo.pA ∈ [Demo.pA] ∧ [1, 999].contains Demo.pA.id = true) :=
  ⟨(c10_unknown_ids_ignored [Demo.pA] [1, 999]).1,
   (c10_unknown_ids_ignored [Demo.pA] [1, 999]).2.2 Demo.pA (by decide)⟩

/-- C6 counterexample: `generateLOTOProcedure` on zero points is not
rejected — no `EmptyProcedureError` exists in the code — and emits the
complete document structure (banner, uppercased name, metadata rows,
steps-table head) with an empty steps table. -/
theorem c6_counterexample :
    Pdf.generateLOTOProcedure [] Demo.meta0
      = { bannerTitle := "LOCKOUT/TAGOUT PROCEDURE", docName := "OUTAGE 12",
          infoRows := [("JSA Number:", "J-1"), ("Work Order:", "W-2"),
                       ("Job Description:", "Swap pump")],
          stepsHead := ["Step", "KKS Code", "Unit", "Description", "Isolation Method"],
          stepsRows := [] } := by decide

/-- C6 amended: PDF rendering of an empty point list succeeds, emitting
the banner and metadata structure with zero step rows (the guard against
empty exports lives in the callers: the page's CSV export handler returns
without a request for an empty list, and the export buttons are disabled);
CSV export with an empty id array also succeeds, rendering exactly the
column header (there is no total-points line in the CSV at all). -/
theorem c6_amended_empty_export (metadata : Pdf.PDFMetadata) (catalog : List IsolationPoint) :
    (Pdf.generateLOTOProcedure [] metadata).stepsRows = []
    ∧ (Pdf.generateLOTOProcedure [] metadata).bannerTitle = "LOCKOUT/TAGOUT PROCEDURE"
    ∧ (Pdf.generateLOTOProcedure [] metadata).infoRows
        = [("JSA Number:", metadata.jsaNumber), ("Work Order:", metadata.workOrder),
           ("Job Description:", metadata.jobDescription)]
    ∧ Routes.exportCsv catalog [] = Routes.csvHeader
    ∧ Client.handleExportLists [] = none := by
  refine ⟨rfl, rfl, rfl, ?_, rfl⟩
  have hnil : Routes.selectedPoints catalog [] = [] := by
    simp [Routes.selectedPoints]
  rw [Routes.exportCsv, hnil]
  show Routes.csvHeader ++ String.intercalate "\n" [] = Routes.csvHeader
  rw [show String.intercalate "\n" [] = "" from rfl]
  simp

/-- C9: for a list containing an entry with the given id,
`handleUpdateIsolationMethod` leaves the catalog untouched, maps every
position of the current list through a function that changes the matching
entry's `isolationMethod` to the new value and preserves its every other
field, and leaves non-matching entries entirely unchanged (hence order and
membership are preserved). -/
theorem c9_override_frame (s : Client.PageState) (pointId : Nat) (newMethod : String)
    (h : (s.currentList.map (fun p => p.id)).contains pointId = true) :
    (Client.updateIsolationMethodState s pointId newMethod).allIsolationPoints
        = s.allIsolationPoints
    ∧ (∀ i : Nat, ((Client.updateIsolationMethodState s pointId newMethod).currentList).get? i
        = (s.currentList.get? i).map (Client.updFun pointId newMethod))
    ∧ (∀ p : IsolationPoint, (Client.updFun pointId newMethod p).id = p.id
        ∧ (Client.updFun pointId newMethod p).kks = p.kks
        ∧ (Client.updFun pointId newMethod p).unit = p.unit
        ∧ (Client.updFun pointId newMethod p).description = p.description
        ∧ (Client.updFun pointId newMethod p).type = p.type
        ∧ (Client.updFun pointId newMethod p).panelKks = p.panelKks
        ∧ (Client.updFun pointId newMethod p).loadKks = p.loadKks
        ∧ (Client.updFun pointId newMethod p).normalPosition = p.normalPosition
        ∧ (Client.updFun pointId newMethod p).isolationPosition = p.isolationPosition
        ∧ (Client.updFun pointId newMethod p).specialInstructions = p.specialInstructions)
    ∧ (∀ p : IsolationPoint, p.id = pointId →
        (Client.updFun pointId newMethod p).isolationMethod = newMethod)
    ∧ (∀ p : IsolationPoint, p.id ≠ pointId → Client.updFun pointId newMethod p = p) := by
  refine ⟨rfl, ?_, ?_, ?_, ?_⟩
  · intro i
    simp [Client.updateIsolationMethodState, Client.handleUpdateIsolationMethod,
      List.get?_map]
  · intro p
    unfold Client.updFun
    by_cases hp : p.id = pointId <;> simp [hp]
  · intro p hp
    simp [Client.updFun, hp]
  · intro p hp
    simp [Client.updFun, hp]

/-- C9 witness: the frame property at a concrete one-entry page state. -/
theorem c9_override_frame_witness :
    (Client.updateIsolationMethodState
        { allIsolationPoints := [Demo.pA], currentList := [Demo.pA] } 1 "Earth").allIsolationPoints
      = [Demo.pA]
    ∧ (Client.updFun 1 "Earth" Demo.pA).isolationMethod = "Earth" :=
  ⟨(c9_override_frame { allIsolationPoints := [Demo.pA], currentList := [Demo.pA] } 1 "Earth" (by decide)).1,
   (c9_override_frame { allIsolationPoints := [Demo.pA], currentList := [Demo.pA] } 1 "Earth"
      (by decide)).2.2.2.1 Demo.pA rfl⟩
